import Mathlib

/-!
Verification of the micro-blog front end (logik101/micro-blog).

Shallow embedding of the client-side pipeline found in `src/App.tsx`,
`src/constants.tsx` and `src/types.ts`: localization resolution,
search/filter, sort, pagination, post normalization, the deterministic
image fallback, the fetch error paths and the page-reset behaviour of the
view controller.  JavaScript strings are modelled as Lean `String` /
`List Char` (UTF-16 code units coincide with scalar values on the strings
that occur here; the hash additionally gets an explicit UTF-16 encoder),
JavaScript numbers as `Int` with explicit 32-bit wrapping where the code
relies on it, and JavaScript truthiness of optional strings/numbers is
made explicit.
-/

namespace MicroBlog

/-- JS truthiness-based `a || b` for a possibly-undefined string `a`
(`undefined` and `""` are falsy). -/
def jsOrOpt (a : Option String) (b : String) : String :=
  match a with
  | none => b
  | some s => if s = "" then b else s

/-- JS truthiness-based `a || b` for two strings (`""` is falsy). -/
def jsOrStr (a b : String) : String :=
  if a = "" then b else a

/-- The two languages of the public site (`src/types.ts`: `Language = 'en' | 'fr'`). -/
inductive Language where
  | en
  | fr
deriving DecidableEq, Repr

/-- The three localizable display fields of a post. -/
inductive Field where
  | title
  | description
  | content
deriving DecidableEq, Repr

/-- Per-language override record of the admin-managed `translations` map
(`src/types.ts`, first `BlogPost` interface). -/
structure Translation where
  title : String := ""
  excerpt : String := ""
  content : String := ""
deriving DecidableEq, Repr

/-- Embeds the `BlogPost` interface of `src/types.ts` (second definition):
base display fields are required strings, the language-suffixed variants are
optional, and the admin `translations` map is modelled per language. -/
structure BlogPost where
  id : String := ""
  author : String := ""
  publicationDate : String := ""
  readTimeMinutes : Int := 0
  imageUrl : Option String := none
  title : String := ""
  description : String := ""
  content : String := ""
  title_en : Option String := none
  title_fr : Option String := none
  description_en : Option String := none
  description_fr : Option String := none
  content_en : Option String := none
  content_fr : Option String := none
  translations_en : Option Translation := none
  translations_fr : Option Translation := none
deriving DecidableEq, Repr

/-- The language-suffixed field `<field>_<language>` of a post
(the `post[key]` lookup in `getLangField`, src/App.tsx:153). -/
def suffixField (p : BlogPost) (f : Field) (l : Language) : Option String :=
  match f, l with
  | .title, .en => p.title_en
  | .title, .fr => p.title_fr
  | .description, .en => p.description_en
  | .description, .fr => p.description_fr
  | .content, .en => p.content_en
  | .content, .fr => p.content_fr

/-- The base field of a post (the `post[field]` lookup in `getLangField`). -/
def baseField (p : BlogPost) (f : Field) : String :=
  match f with
  | .title => p.title
  | .description => p.description
  | .content => p.content

/-- The admin translations override for a language. -/
def transFor (p : BlogPost) (l : Language) : Option Translation :=
  match l with
  | .en => p.translations_en
  | .fr => p.translations_fr

/-- The field of a translations override corresponding to a display field
(the override record carries `excerpt` in place of `description`). -/
def transField (tr : Translation) (f : Field) : String :=
  match f with
  | .title => tr.title
  | .description => tr.excerpt
  | .content => tr.content

/-- Embeds `getLangField` (src/App.tsx:152-155):
`(post[key] as string) || (post[field] as string) || ""`. -/
def getLangField (p : BlogPost) (f : Field) (l : Language) : String :=
  jsOrStr (jsOrOpt (suffixField p f l) (baseField p f)) ""

/-- Modelled from the spec: the §4.3 resolution chain for `resolveField` —
(a) language-suffixed field, (b) admin-managed per-language translation
override if present, (c) the base field.  Written to compare against the
implementation `getLangField`, which has no step (b). -/
def resolveFieldSpec (p : BlogPost) (f : Field) (l : Language) : String :=
  match suffixField p f l with
  | some s => s
  | none =>
    match transFor p l with
    | some tr => transField tr f
    | none => baseField p f

/-- The resolution chain actually implemented: the first non-empty of the
language-suffixed field and the base field, else the empty string; the
translations override is never consulted. -/
def resolveFieldNoOverride (p : BlogPost) (f : Field) (l : Language) : String :=
  match suffixField p f l with
  | some s => if s = "" then baseField p f else s
  | none => baseField p f

/-- Embeds `POSTS_PER_PAGE` (src/constants.tsx:4). -/
def POSTS_PER_PAGE : Nat := 6

/-- Embeds `Math.ceil(allFilteredBlogs.length / POSTS_PER_PAGE)`
(src/App.tsx:219) as exact ceiling division on `Nat` (the double division is
exact enough that its ceiling agrees for every list length). -/
def totalPages (count : Nat) : Nat := (count + POSTS_PER_PAGE - 1) / POSTS_PER_PAGE

/-- Embeds the page slice (src/App.tsx:220-223):
`allFilteredBlogs.slice(start, start + POSTS_PER_PAGE)` with
`start = (currentPage - 1) * POSTS_PER_PAGE`, pages being 1-indexed. -/
def pageSlice (page : Nat) (l : List α) : List α :=
  (l.drop ((page - 1) * POSTS_PER_PAGE)).take POSTS_PER_PAGE

/-- Wrap an integer to a 32-bit signed integer (the effect of JavaScript
`|= 0`): reduce mod 2^32 and reinterpret as signed. -/
def toInt32 (x : Int) : Int := (x + 2 ^ 31) % 2 ^ 32 - 2 ^ 31

/-- Embeds one iteration of the hash loop of `getPostImage`
(src/constants.tsx:23-24): `hash = ((hash << 5) - hash) + charCode; hash |= 0`,
where `hash << 5` is itself the 32-bit value `toInt32 (h * 32)`. -/
def jsHashStep (h c : Int) : Int := toInt32 (toInt32 (h * 32) - h + c)

/-- The hash loop of `getPostImage` over the UTF-16 code units of the id. -/
def jsHash (units : List Nat) : Int :=
  units.foldl (fun h c => jsHashStep h (c : Int)) 0

/-- UTF-16 code units of a string (`charCodeAt`); characters outside the
basic multilingual plane contribute their surrogate pair. -/
def utf16Units (s : String) : List Nat :=
  s.toList.foldr (fun c acc =>
    (if c.toNat < 65536 then [c.toNat]
     else [55296 + (c.toNat - 65536) / 1024, 56320 + (c.toNat - 65536) % 1024]) ++ acc) []

/-- Embeds `DEFAULT_BLOG_IMAGES` (src/constants.tsx:6-11). -/
def DEFAULT_BLOG_IMAGES : List String :=
  [ "https://raw.githubusercontent.com/logik101/microF/main/d1.jpg"
  , "https://raw.githubusercontent.com/logik101/microF/main/d2.jpg"
  , "https://raw.githubusercontent.com/logik101/microF/main/d3.jpg"
  , "https://raw.githubusercontent.com/logik101/microF/main/d4.png" ]

/-- JS `String.prototype.trim`: drop leading and trailing whitespace
(computable by structural recursion on the character list). -/
def jsTrim (s : String) : String :=
  String.mk (((s.toList.dropWhile Char.isWhitespace).reverse.dropWhile
    Char.isWhitespace).reverse)

/-- The argument shape of `getPostImage` (src/constants.tsx:16):
`{ imageUrl?: string; id: string }`. -/
structure ImageRef where
  imageUrl : Option String := none
  id : String := ""
deriving DecidableEq, Repr

/-- Embeds `getPostImage` (src/constants.tsx:16-29): return `imageUrl` when
truthy and non-blank, otherwise hash the id (an empty id hashes as "0") and
index the fallback list by `Math.abs(hash) % length`. -/
def getPostImage (p : ImageRef) : String :=
  let useUrl := match p.imageUrl with
    | some u => u ≠ "" && jsTrim u ≠ ""
    | none => false
  if useUrl then p.imageUrl.getD "" else
    let idString := if p.id = "" then "0" else p.id
    let h := jsHash (utf16Units idString)
    DEFAULT_BLOG_IMAGES.getD (h.natAbs % DEFAULT_BLOG_IMAGES.length) ""

/-- A 13-element post list for the pagination example of claim C2. -/
def c2List : List BlogPost := List.replicate 13 {}

/-- Concrete post for claim C1: base title with an English suffix field. -/
def c1ExamplePost : BlogPost :=
  { title := "Base", title_en := some "English" }

/-- Concrete post for the C1 counterexample: a base title and an admin
translations override for English, but no suffixed field. -/
def c1OverridePost : BlogPost :=
  { title := "Base", translations_en := some { title := "Override" } }

/-- Split a character list at the '-' separators (for the ISO date subset). -/
def splitDash : List Char → List (List Char)
  | [] => [[]]
  | c :: rest =>
    match splitDash rest with
    | [] => [[c]]
    | g :: gs => if c = '-' then [] :: g :: gs else (c :: g) :: gs

/-- Numeric value of a digit list. -/
def digitsVal (l : List Char) : Nat :=
  l.foldl (fun n c => n * 10 + (c.toNat - 48)) 0

/-- Gregorian leap-year test. -/
def isLeap (y : Int) : Bool := (y % 4 = 0 && y % 100 ≠ 0) || y % 400 = 0

/-- Days in a month of the proleptic Gregorian calendar. -/
def daysInMonth (y : Int) (m : Nat) : Nat :=
  if m = 2 then (if isLeap y then 29 else 28)
  else if m = 4 || m = 6 || m = 9 || m = 11 then 30 else 31

/-- Days since 1970-01-01 of a proleptic-Gregorian civil date
(era-based day-count computation). -/
def daysFromCivil (y : Int) (m d : Nat) : Int :=
  let yAdj : Int := if m ≤ 2 then y - 1 else y
  let era : Int := (if 0 ≤ yAdj then yAdj else yAdj - 399) / 400
  let yoe : Int := yAdj - era * 400
  let mp : Int := if 2 < m then (m : Int) - 3 else (m : Int) + 9
  let doy : Int := (153 * mp + 2) / 5 + (d : Int) - 1
  let doe : Int := yoe * 365 + yoe / 4 - yoe / 100 + doy
  era * 146097 + doe - 719468

/-- Modelled subset of JavaScript `new Date(s)` parsing used by `parseDate`:
the ISO calendar-date form `yyyy-mm-dd` with a valid month and day parses;
every other string is treated as unparseable (`NaN`). -/
def parseISO (s : String) : Option (Int × Nat × Nat) :=
  match splitDash s.toList with
  | [ys, ms, ds] =>
    let y : Int := (digitsVal ys : Int)
    let m := digitsVal ms
    let d := digitsVal ds
    if ys.length = 4 && ms.length = 2 && ds.length = 2
        && (ys ++ ms ++ ds).all Char.isDigit
        && 1 ≤ m && m ≤ 12 && 1 ≤ d && d ≤ daysInMonth y m
    then some (y, m, d) else none
  | _ => none

/-- Embeds `parseDate` (src/App.tsx:165-168): `new Date(dateStr).getTime()`
in ms since the epoch, with an unparseable date (`NaN`) mapped to 0. -/
def parseDate (s : String) : Int :=
  match parseISO s with
  | some (y, m, d) => daysFromCivil y m d * 86400000
  | none => 0

/-- The sort order state (src/App.tsx:40). -/
inductive SortOrder where
  | newest
  | oldest
deriving DecidableEq, Repr

/-- The sort key of a post: its parsed publication date. -/
def sortKey (p : BlogPost) : Int := parseDate p.publicationDate

/-- The comparator of src/App.tsx:212-216 (`dateB - dateA` for newest,
`dateA - dateB` for oldest), expressed as the "sorts no later than"
relation `comparator a b ≤ 0` that the ES2019-stable
`Array.prototype.sort` realizes. -/
def jsSortLe (o : SortOrder) (a b : BlogPost) : Bool :=
  decide ((if o = .newest then sortKey b - sortKey a else sortKey a - sortKey b) ≤ 0)

/-- The comparator as a decidable relation. -/
def jsSortRel (o : SortOrder) (a b : BlogPost) : Prop := jsSortLe o a b = true

instance jsSortRelDec (o : SortOrder) : DecidableRel (jsSortRel o) :=
  fun a b => Bool.decEq (jsSortLe o a b) true

/-- Embeds the sort of `allFilteredBlogs` (src/App.tsx:209-217).
`Array.prototype.sort` is required to be stable (ES2019), and a stable sort
by a total transitive comparator relation is unique, so it is embedded as a
stable insertion sort by the comparator relation. -/
def sortPosts (o : SortOrder) (l : List BlogPost) : List BlogPost :=
  l.insertionSort (jsSortRel o)

/-- The three posts of the C4 sorting example. -/
def c4Posts : List BlogPost :=
  [ { id := "a", publicationDate := "2024-01-01" }
  , { id := "b", publicationDate := "not-a-date" }
  , { id := "c", publicationDate := "2024-06-01" } ]

/-- Two posts with equal (unparseable) dates for the stability witness. -/
def c4TieA : BlogPost := { id := "a", publicationDate := "x" }

/-- Second post of the tie pair. -/
def c4TieB : BlogPost := { id := "b", publicationDate := "y" }

/-- Lowercase a character list (JS `toLowerCase`, modelled per character). -/
def lowerLc (l : List Char) : List Char := l.map Char.toLower

/-- Lowercase a string into a character list. -/
def lowerStr (s : String) : List Char := lowerLc s.toList

/-- Whether a character list starts with another. -/
def startsWithL : List Char → List Char → Bool
  | _, [] => true
  | [], _ :: _ => false
  | a :: as, b :: bs => a = b && startsWithL as bs

/-- First index at which `needle` occurs in the list (JS `indexOf`,
`none` for -1). -/
def idxOfSub (needle : List Char) : List Char → Option Nat
  | [] => if needle = [] then some 0 else none
  | c :: t => if startsWithL (c :: t) needle then some 0 else (idxOfSub needle t).map (· + 1)

/-- JS `hay.includes(needle)` on character lists. -/
def jsIncludes (hay needle : List Char) : Bool := (idxOfSub needle hay).isSome

/-- The "..." marker of the excerpt. -/
def ellipsisMark : List Char := ['.', '.', '.']

/-- The replacement `/[\n\r]/g → " "` applied per character. -/
def nlToSpace (c : Char) : Char := if c = '\n' || c = '\r' then ' ' else c

/-- Embeds the snippet construction of `searchResults` (src/App.tsx:197-200):
`index = content.toLowerCase().indexOf(q)` (−1 modelled as `-1 : Int`),
`start = max(0, index - 40)`, `end = min(content.length, index + q.length + 40)`,
then ellipses around `content.substring(start, end)` with each newline or
carriage return replaced by a space. -/
def snippetOf (content q : List Char) : List Char :=
  let idxI : Int := match idxOfSub q (lowerLc content) with
    | some i => (i : Int)
    | none => -1
  let s : Int := max 0 (idxI - 40)
  let e : Int := min (content.length : Int) (idxI + q.length + 40)
  (if 0 < s then ellipsisMark else [])
    ++ ((content.take e.toNat).drop s.toNat).map nlToSpace
    ++ (if e < (content.length : Int) then ellipsisMark else [])

/-- The record returned per matching post by `searchResults`
(src/App.tsx:203): `{ post, title, snippet, author, type }`. -/
structure SearchMatch where
  post : BlogPost
  title : String
  snippet : String
  author : String
  type : String
deriving DecidableEq, Repr

/-- Embeds the per-post body of `searchResults` (src/App.tsx:174-206);
`q` is the already-lowercased query. -/
def searchEntry (lang : Language) (q : List Char) (p : BlogPost) : Option SearchMatch :=
  let title := getLangField p .title lang
  let desc := getLangField p .description lang
  let content := getLangField p .content lang
  let author := jsOrStr p.author "Admin"
  let titleMatch := jsIncludes (lowerStr title) q
  let descMatch := jsIncludes (lowerStr desc) q
  let contentMatch := jsIncludes (lowerStr content) q
  let authorMatch := jsIncludes (lowerStr author) q
  if titleMatch || descMatch || contentMatch || authorMatch then
    some { post := p
         , title := title
         , snippet :=
             if authorMatch then ""
             else if titleMatch then ""
             else if descMatch then ""
             else if contentMatch then String.mk (snippetOf content.toList q)
             else ""
         , author := author
         , type :=
             if authorMatch then "author"
             else if titleMatch then "title"
             else if descMatch then "description"
             else if contentMatch then "content"
             else "title" }
  else none

/-- Embeds `searchResults` (src/App.tsx:170-207): empty for a blank query,
otherwise the matching entries in input order (`map` + `filter(Boolean)`). -/
def searchResults (lang : Language) (query : String) (posts : List BlogPost) :
    List SearchMatch :=
  if jsTrim query = "" then [] else posts.filterMap (searchEntry lang (lowerStr query))

/-- The searched fields of a post, in the spec's declared priority order
author → title → description → content. -/
def priorityFields (lang : Language) (p : BlogPost) : List (String × String) :=
  [ ("author", jsOrStr p.author "Admin")
  , ("title", getLangField p .title lang)
  , ("description", getLangField p .description lang)
  , ("content", getLangField p .content lang) ]

/-- Modelled from the spec: the name of the first field (in priority order)
that contains the query, case-insensitively. -/
def firstContaining (q : List Char) (fields : List (String × String)) : Option String :=
  (fields.find? (fun nf => jsIncludes (lowerStr nf.2) q)).map Prod.fst

/-- Modelled from the amended claim C6: the excerpt is the window from 40
characters before to 40 characters after the first occurrence of the query,
each newline/carriage return replaced by a single space, with "..."
prepended exactly when the window is truncated at the start and appended
exactly when it is truncated at the end. -/
def excerptAmended (content q : List Char) : List Char :=
  match idxOfSub q (lowerLc content) with
  | none => []
  | some i =>
    let winStart := i - 40
    let winEnd := min content.length (i + q.length + 40)
    (if 40 < i then ellipsisMark else [])
      ++ ((content.drop winStart).take (winEnd - winStart)).map nlToSpace
      ++ (if winEnd < content.length then ellipsisMark else [])

/-- Modelled from the spec: collapse each run of whitespace to a single
space (the normalization the original claim C6 asserts of the excerpt). -/
def collapseWs : List Char → List Char
  | [] => []
  | [c] => if c.isWhitespace then [' '] else [c]
  | c :: d :: rest =>
    if c.isWhitespace && d.isWhitespace then collapseWs (d :: rest)
    else (if c.isWhitespace then ' ' else c) :: collapseWs (d :: rest)

/-- Concrete post for the C6 counterexample: two consecutive newlines
inside the excerpt window. -/
def c6Post : BlogPost := { id := "p1", content := "a\n\nb" }

/-- The match record produced for `c6Post` and query "b". -/
def c6Match : SearchMatch :=
  { post := c6Post, title := "", snippet := "a  b", author := "Admin", type := "content" }

/-- Concrete post for the C5 witness: author and content both contain the
query "ali", but author has priority. -/
def c5Post : BlogPost := { id := "p2", author := "Alice", content := "Alibi story" }

/-- The match record produced for `c5Post` and query "ali". -/
def c5Match : SearchMatch :=
  { post := c5Post, title := "", snippet := "", author := "Alice", type := "author" }

/-- A JSON scalar as it can arrive in a raw post's `id` field: absent, a
string, or a number (JS truthiness distinguishes them from each other). -/
inductive JsVal where
  | undef
  | str (s : String)
  | num (n : Int)
deriving DecidableEq, Repr

/-- JS truthiness of such a value: `undefined`, `""` and `0` are falsy. -/
def JsVal.truthy : JsVal → Bool
  | .undef => false
  | .str s => s ≠ ""
  | .num n => n ≠ 0

/-- JS truthiness-based `a || b` for a possibly-undefined number
(`undefined` and `0` are falsy). -/
def jsNumOr (a : Option Int) (b : Int) : Int :=
  match a with
  | none => b
  | some v => if v = 0 then b else v

/-- A raw post element of the fetched JSON payload: every field optional
(the `id` field additionally admits non-string scalars). -/
structure RawPost where
  id : JsVal := .undef
  author : Option String := none
  publicationDate : Option String := none
  readTimeMinutes : Option Int := none
  imageUrl : Option String := none
  title : Option String := none
  title_fr : Option String := none
  title_en : Option String := none
  description : Option String := none
  description_fr : Option String := none
  description_en : Option String := none
  content : Option String := none
  content_fr : Option String := none
  content_en : Option String := none
deriving DecidableEq, Repr

/-- A normalized post as produced by `validPosts` (src/App.tsx:88-100): the
spread `...p` keeps the language-suffixed fields, the defaulted fields are
concrete, and `id` keeps whatever truthy scalar the source supplied. -/
structure NPost where
  id : JsVal
  author : String
  publicationDate : String
  readTimeMinutes : Int
  imageUrl : Option String
  title : String
  description : String
  content : String
  title_fr : Option String
  title_en : Option String
  description_fr : Option String
  description_en : Option String
  content_fr : Option String
  content_en : Option String
deriving DecidableEq, Repr

/-- Embeds one element of the `validPosts` mapping (src/App.tsx:88-100);
`now` stands for the impure `new Date().toLocaleDateString()`. -/
def normalizeOne (now : String) (idx : Nat) (p : RawPost) : NPost :=
  { id := if p.id.truthy then p.id else .str ("post-" ++ toString idx)
  , author := jsOrOpt p.author "Admin"
  , publicationDate := jsOrOpt p.publicationDate now
  , readTimeMinutes := jsNumOr p.readTimeMinutes 5
  , imageUrl := p.imageUrl
  , title := jsOrOpt p.title (jsOrOpt p.title_fr (jsOrOpt p.title_en "Untitled Post"))
  , description := jsOrOpt p.description
      (jsOrOpt p.description_fr (jsOrOpt p.description_en ""))
  , content := jsOrOpt p.content (jsOrOpt p.content_fr (jsOrOpt p.content_en ""))
  , title_fr := p.title_fr
  , title_en := p.title_en
  , description_fr := p.description_fr
  , description_en := p.description_en
  , content_fr := p.content_fr
  , content_en := p.content_en }

/-- The mapping with explicit running index. -/
def normalizeFrom (now : String) : Nat → List RawPost → List NPost
  | _, [] => []
  | idx, p :: ps => normalizeOne now idx p :: normalizeFrom now (idx + 1) ps

/-- Embeds the `validPosts` mapping (src/App.tsx:88-100):
`extractedPosts.map((p, idx) => ...)`. -/
def normalize (now : String) (l : List RawPost) : List NPost := normalizeFrom now 0 l

/-- The backquote character (code 96). -/
def backquote : Char := Char.ofNat 96

/-- The Markdown code-fence marker. -/
def fenceMark : List Char := [backquote, backquote, backquote]

/-- Drop trailing whitespace of a character list. -/
def trimRightWs (l : List Char) : List Char :=
  (l.reverse.dropWhile Char.isWhitespace).reverse

/-- Embeds the code-fence extraction of `fetchData` (src/App.tsx:69-72),
the match of /```(?:json)?\s*([\s\S]*?)\s*```/ on the trimmed body: from the
first fence marker, optionally consume a literal "json" tag, skip
whitespace, and lazily take the group up to the next fence marker (the
whitespace directly before it belongs to the regex, not the group); when no
fenced block is matched the text is left unchanged. -/
def stripFence (s : String) : String :=
  let cs := s.toList
  match idxOfSub fenceMark cs with
  | none => s
  | some i =>
    let afterOpen := cs.drop (i + 3)
    let afterTag := if startsWithL afterOpen ['j', 's', 'o', 'n']
      then afterOpen.drop 4 else afterOpen
    let inner0 := afterTag.dropWhile Char.isWhitespace
    match idxOfSub fenceMark inner0 with
    | none => s
    | some j => String.mk (trimRightWs (inner0.take j))

/-- Whether a character opens a JSON bracket span. -/
def isOpenBracket (c : Char) : Bool := c = '\x7b' || c = '['

/-- Whether a character closes a JSON bracket span. -/
def isCloseBracket (c : Char) : Bool := c = '\x7d' || c = ']'

/-- Embeds the bracket-span match of `fetchData` (src/App.tsx:74), the
regex /[{\[][\s\S]*[}\]]/: the span from the first opening bracket to the
last closing bracket after it, or nothing when no such pair exists. -/
def findJsonSpan (s : String) : Option String :=
  let cs := s.toList
  match cs.findIdx? isOpenBracket with
  | none => none
  | some i =>
    match cs.reverse.findIdx? isCloseBracket with
    | none => none
    | some rj =>
      let j := cs.length - 1 - rj
      if i < j then some (String.mk ((cs.take (j + 1)).drop i)) else none

/-- The state `fetchData` updates on success (src/App.tsx:102-103). -/
structure FetchState where
  posts : List NPost
  lastUpdated : Nat
deriving DecidableEq, Repr

/-- One outcome of the single `fetch` call of `fetchData`: a network error,
a non-2xx response (`!response.ok` throws into the same catch), or a body. -/
inductive FetchOutcome where
  | networkError
  | httpError (status : Nat)
  | ok (body : String)
deriving DecidableEq, Repr

/-- Embeds `fetchData` (src/App.tsx:56-110) as a state transition on one
fetch outcome, returning the new state and whether the catch block logged an
error.  `JSON.parse` together with the array/`{posts}`/single-object
dispatch (lines 77-86) is modelled by the `parse` argument, `none` standing
for a parse exception; `now` and `time` stand for the impure current date
and timestamp. -/
def fetchStep (parse : String → Option (List RawPost)) (now : String) (time : Nat)
    (st : FetchState) (outcome : FetchOutcome) : FetchState × Bool :=
  match outcome with
  | .networkError => (st, true)
  | .httpError _ => (st, true)
  | .ok body =>
    let clean := stripFence (jsTrim body)
    match findJsonSpan clean with
    | none => (st, false)
    | some span =>
      match parse span with
      | none => (st, true)
      | some raws => ({ posts := normalize now raws, lastUpdated := time }, false)

/-- The view-controller state relevant to pagination (src/App.tsx:36-41). -/
structure ViewSt where
  searchQuery : String
  sortOrder : SortOrder
  language : Language
  currentPage : Nat
deriving DecidableEq, Repr

/-- The user events that mutate that state. -/
inductive UiEvent where
  | setQuery (q : String)
  | setSort (o : SortOrder)
  | setLang (l : Language)
  | setPage (p : Nat)
deriving DecidableEq, Repr

/-- Embeds the view-controller transitions: a state update followed by the
effect of src/App.tsx:148-150, which runs `setCurrentPage(1)` after any
render in which `searchQuery`, `sortOrder` or `language` changed (React
re-renders, and hence fires the effect, exactly when the new value differs
from the old; setting an identical value bails out). -/
def stepUi (s : ViewSt) (e : UiEvent) : ViewSt :=
  match e with
  | .setQuery q =>
    if q ≠ s.searchQuery then { s with searchQuery := q, currentPage := 1 } else s
  | .setSort o =>
    if o ≠ s.sortOrder then { s with sortOrder := o, currentPage := 1 } else s
  | .setLang l =>
    if l ≠ s.language then { s with language := l, currentPage := 1 } else s
  | .setPage p => { s with currentPage := p }

/-- Raw post of the C7 counterexample: a negative supplied read time. -/
def c7Raw : RawPost := { readTimeMinutes := some (-3) }

/-- Its normalization (at date string "d"). -/
def c7NPost : NPost :=
  { id := .str "post-0", author := "Admin", publicationDate := "d"
  , readTimeMinutes := -3, imageUrl := none
  , title := "Untitled Post", description := "", content := ""
  , title_fr := none, title_en := none, description_fr := none
  , description_en := none, content_fr := none, content_en := none }

/-- Raw post with a present-but-empty string id. -/
def c10RawStr : RawPost := { id := .str "" }

/-- Raw post with the falsy numeric id 0. -/
def c10RawNum : RawPost := { id := .num 0 }

/-- Its normalization (at date string "d"). -/
def c10NPost : NPost :=
  { id := .str "post-0", author := "Admin", publicationDate := "d"
  , readTimeMinutes := 5, imageUrl := none
  , title := "Untitled Post", description := "", content := ""
  , title_fr := none, title_en := none, description_fr := none
  , description_en := none, content_fr := none, content_en := none }

/-- A concrete stored state for the C8 witness. -/
def c8State : FetchState := { posts := [], lastUpdated := 0 }

/-- A concrete view state for the C9 witness: page 4 with a non-empty
query. -/
def c9State : ViewSt :=
  { searchQuery := "old", sortOrder := .newest, language := .fr, currentPage := 4 }

end MicroBlog

namespace MicroBlog

theorem toInt32_range (x : Int) : -(2 ^ 31) ≤ toInt32 x ∧ toInt32 x < 2 ^ 31 := by
  unfold toInt32
  omega

theorem jsHashStep_range (h c : Int) :
    -(2 ^ 31) ≤ jsHashStep h c ∧ jsHashStep h c < 2 ^ 31 :=
  toInt32_range _

theorem jsHash_foldl_range (units : List Nat) :
    ∀ h0 : Int, -(2 ^ 31) ≤ h0 → h0 < 2 ^ 31 →
      -(2 ^ 31) ≤ units.foldl (fun h c => jsHashStep h (c : Int)) h0
      ∧ units.foldl (fun h c => jsHashStep h (c : Int)) h0 < 2 ^ 31 := by
  induction units with
  | nil => intro h0 h1 h2; simpa using ⟨h1, h2⟩
  | cons c rest ih =>
    intro h0 h1 h2
    exact ih _ (jsHashStep_range h0 c).1 (jsHashStep_range h0 c).2

/-- C1 (counterexample): the claimed resolution chain consults the admin
translations override, but `getLangField` does not: on a post whose only
English data is the translations override, the code returns the base field
`"Base"` while the claimed chain returns `"Override"`. -/
theorem C1_counterexample :
    getLangField c1OverridePost .title .en = "Base"
    ∧ resolveFieldSpec c1OverridePost .title .en = "Override"
    ∧ getLangField c1OverridePost .title .en ≠ resolveFieldSpec c1OverridePost .title .en := by
  refine ⟨rfl, rfl, ?_⟩
  decide

/-- C1 (amended): `getLangField` is a pure total function returning the first
non-empty value of the chain language-suffixed field → base field → empty
string; the admin translations override is never consulted (the result is
invariant under arbitrary changes to the translations map), and on the
claim's example post resolving `title` yields `"English"` for `en` and
`"Base"` for `fr`. -/
theorem C1_main :
    (∀ (p : BlogPost) (f : Field) (l : Language) (t1 t2 : Option Translation),
      getLangField { p with translations_en := t1, translations_fr := t2 } f l
        = resolveFieldNoOverride p f l)
    ∧ getLangField c1ExamplePost .title .en = "English"
    ∧ getLangField c1ExamplePost .title .fr = "Base" := by
  refine ⟨?_, rfl, rfl⟩
  intro p f l t1 t2
  have hsuffix : suffixField { p with translations_en := t1, translations_fr := t2 } f l
      = suffixField p f l := by
    cases f <;> cases l <;> rfl
  have hbase : baseField { p with translations_en := t1, translations_fr := t2 } f
      = baseField p f := by
    cases f <;> rfl
  unfold getLangField resolveFieldNoOverride
  rw [hsuffix, hbase]
  cases hs : suffixField p f l with
  | none =>
    simp only [jsOrOpt, jsOrStr]
    split <;> simp_all
  | some s =>
    by_cases h : s = "" <;> simp only [jsOrOpt, jsOrStr, h, if_pos, if_neg] <;>
      [skip; simp [h]]
    split <;> simp_all

end MicroBlog

namespace MicroBlog

/-- C2 (counterexample): for the empty filtered list the code computes
`totalPages = Math.ceil(0 / 6) = 0`, not the claimed minimum of 1. -/
theorem C2_counterexample :
    totalPages ([] : List BlogPost).length = 0 ∧ (0 : Nat) ≠ 1 := by
  decide

/-- C2 (amended): `totalPages` is exact ceiling division by the page size
with no minimum clamp — the empty list yields 0 pages, not 1; pages are
1-indexed slices of size `POSTS_PER_PAGE`; with 13 filtered posts
`totalPages = 3` and page 3 holds exactly 1 item. -/
theorem C2_main :
    totalPages 0 = 0
    ∧ (∀ n : Nat,
        n ≤ POSTS_PER_PAGE * totalPages n
        ∧ POSTS_PER_PAGE * totalPages n < n + POSTS_PER_PAGE)
    ∧ totalPages 13 = 3
    ∧ (∀ l : List BlogPost, l.length = 13 →
        totalPages l.length = 3 ∧ (pageSlice 3 l).length = 1)
    ∧ (∀ (l : List BlogPost) (page : Nat),
        (pageSlice page l).length
          = min POSTS_PER_PAGE (l.length - (page - 1) * POSTS_PER_PAGE)) := by
  refine ⟨by decide, ?_, by decide, ?_, ?_⟩
  · intro n
    unfold totalPages POSTS_PER_PAGE
    omega
  · intro l hl
    constructor
    · rw [hl]
      decide
    · simp [pageSlice, hl, POSTS_PER_PAGE]
  · intro l page
    simp [pageSlice, POSTS_PER_PAGE, Nat.min_comm]

/-- C2 (witness): the pagination example at a concrete 13-element list. -/
theorem C2_witness : totalPages c2List.length = 3 ∧ (pageSlice 3 c2List).length = 1 :=
  C2_main.2.2.2.1 c2List (by decide)

/-- C3: the hash loop step equals the claimed recurrence
`(hash * 31 + charCode) mod 2^32` interpreted as a 32-bit signed integer;
the accumulated hash always lies in signed 32-bit range; the function is a
pure function of (`id`, `imageUrl`); for blank `imageUrl` the image is the
fallback entry at index `abs(hash) mod listLength`; and for `id = "0"` the
hash is 48, `48 mod 4 = 0`, selecting the first fallback image. -/
theorem C3_main :
    (∀ h c : Int, jsHashStep h c = toInt32 (h * 31 + c))
    ∧ (∀ units : List Nat, -(2 ^ 31) ≤ jsHash units ∧ jsHash units < 2 ^ 31)
    ∧ (∀ p q : ImageRef, p.id = q.id → p.imageUrl = q.imageUrl →
        getPostImage p = getPostImage q)
    ∧ (∀ p : ImageRef,
        (p.imageUrl = none ∨ ∃ u, p.imageUrl = some u ∧ (u = "" ∨ jsTrim u = "")) →
        getPostImage p
          = DEFAULT_BLOG_IMAGES.getD
              ((jsHash (utf16Units (if p.id = "" then "0" else p.id))).natAbs
                % DEFAULT_BLOG_IMAGES.length) "")
    ∧ jsHash (utf16Units "0") = 48
    ∧ (48 : Nat) % DEFAULT_BLOG_IMAGES.length = 0
    ∧ getPostImage { id := "0" } = DEFAULT_BLOG_IMAGES.getD 0 "" := by
  refine ⟨?_, fun units => jsHash_foldl_range units 0 (by decide) (by decide),
    ?_, ?_, by decide, by decide, by decide⟩
  · intro h c
    unfold jsHashStep toInt32
    omega
  · intro p q h1 h2
    have : p = q := by cases p; cases q; simp_all
    rw [this]
  · intro p hp
    rcases hp with hp | ⟨u, hu, hblank⟩
    · simp [getPostImage, hp]
    · rcases hblank with hb | hb <;> simp [getPostImage, hu, hb]

/-- C3 (witness): the blank-image-url branch applied at `id = "0"`. -/
theorem C3_witness :
    getPostImage { id := "0" }
      = DEFAULT_BLOG_IMAGES.getD
          ((jsHash (utf16Units (if ("0" : String) = "" then "0" else "0"))).natAbs
            % DEFAULT_BLOG_IMAGES.length) "" :=
  C3_main.2.2.2.1 { id := "0" } (Or.inl rfl)

end MicroBlog

namespace MicroBlog

theorem jsSortRel_trans (o : SortOrder) : IsTrans BlogPost (jsSortRel o) := by
  constructor
  intro a b c hab hbc
  cases o <;> simp [jsSortRel, jsSortLe] at hab hbc ⊢ <;> omega

theorem jsSortRel_total (o : SortOrder) : IsTotal BlogPost (jsSortRel o) := by
  constructor
  intro a b
  cases o <;> simp [jsSortRel, jsSortLe] <;> omega

theorem jsSortRel_of_tie (o : SortOrder) (a b : BlogPost)
    (h : sortKey a = sortKey b) : jsSortRel o a b := by
  cases o <;> simp [jsSortRel, jsSortLe, h]

/-- C4: sorting never fails — an unparseable `publicationDate` gets sort
key 0; the output is a permutation of the input, descending by key for
`newest` and ascending for `oldest`; ties keep their relative input order
(stability); and on the example dates `2024-01-01`, `not-a-date`,
`2024-06-01` the `newest` order is `2024-06-01`, `2024-01-01`,
`not-a-date`. -/
theorem C4_main :
    (∀ s : String, parseISO s = none → parseDate s = 0)
    ∧ (∀ (o : SortOrder) (l : List BlogPost), (sortPosts o l).Perm l)
    ∧ (∀ l : List BlogPost,
        (sortPosts .newest l).Pairwise (fun a b => sortKey b ≤ sortKey a))
    ∧ (∀ l : List BlogPost,
        (sortPosts .oldest l).Pairwise (fun a b => sortKey a ≤ sortKey b))
    ∧ (∀ (o : SortOrder) (l : List BlogPost) (a b : BlogPost),
        List.Sublist [a, b] l → sortKey a = sortKey b →
        List.Sublist [a, b] (sortPosts o l))
    ∧ parseDate "not-a-date" = 0
    ∧ (sortPosts .newest c4Posts).map (fun p => p.publicationDate)
        = ["2024-06-01", "2024-01-01", "not-a-date"] := by
  refine ⟨?_, ?_, ?_, ?_, ?_, by decide, by decide⟩
  · intro s h
    simp [parseDate, h]
  · intro o l
    exact List.perm_insertionSort (jsSortRel o) l
  · intro l
    haveI := jsSortRel_trans .newest
    haveI := jsSortRel_total .newest
    refine (List.sorted_insertionSort (jsSortRel .newest) l).imp ?_
    intro a b hab
    simpa [jsSortRel, jsSortLe] using hab
  · intro l
    haveI := jsSortRel_trans .oldest
    haveI := jsSortRel_total .oldest
    refine (List.sorted_insertionSort (jsSortRel .oldest) l).imp ?_
    intro a b hab
    simpa [jsSortRel, jsSortLe] using hab
  · intro o l a b hsub htie
    exact List.pair_sublist_insertionSort (jsSortRel_of_tie o a b htie) hsub

/-- C4 (witness): two posts with equal sort keys stay in input order. -/
theorem C4_witness :
    List.Sublist [c4TieA, c4TieB] (sortPosts .newest [c4TieA, c4TieB]) :=
  C4_main.2.2.2.2.1 .newest [c4TieA, c4TieB] c4TieA c4TieB
    (List.Sublist.refl _) (by decide)

/-- C5: a post matches exactly when one of author/title/description/content
contains the (case-insensitively compared) query, and the reported `type`
is the first field containing the query in the priority order
author → title → description → content. -/
theorem C5_main :
    ∀ (lang : Language) (q : List Char) (p : BlogPost),
      ((searchEntry lang q p).isSome
        ↔ (firstContaining q (priorityFields lang p)).isSome)
      ∧ (∀ m : SearchMatch, searchEntry lang q p = some m →
          firstContaining q (priorityFields lang p) = some m.type) := by
  intro lang q p
  by_cases ha : jsIncludes (lowerStr (jsOrStr p.author "Admin")) q
    <;> by_cases ht : jsIncludes (lowerStr (getLangField p .title lang)) q
    <;> by_cases hd : jsIncludes (lowerStr (getLangField p .description lang)) q
    <;> by_cases hc : jsIncludes (lowerStr (getLangField p .content lang)) q
    <;> constructor
    <;> simp [searchEntry, firstContaining, priorityFields, List.find?, ha, ht, hd, hc]
    <;> intro m hm
    <;> simp [← hm]

/-- C5 (witness): on a post whose author and content both contain the query,
the reported field is `author`. -/
theorem C5_witness :
    firstContaining (lowerStr "ali") (priorityFields .en c5Post) = some c5Match.type :=
  (C5_main .en (lowerStr "ali") c5Post).2 c5Match (by decide)

end MicroBlog

namespace MicroBlog

/-- C6 (counterexample): two consecutive newlines in the excerpt window are
replaced by two spaces, not collapsed to a single space as the claim states:
for content `"a\n\nb"` and query `"b"` the produced excerpt is `"a  b"`,
while collapsing whitespace runs would give `"a b"`. -/
theorem C6_counterexample :
    (searchResults .en "b" [c6Post]).map (fun m => m.snippet) = ["a  b"]
    ∧ collapseWs "a  b".toList = "a b".toList
    ∧ ("a  b" : String) ≠ "a b" := by
  decide

/-- C6 (amended): for a match found in `content`, the snippet is exactly the
window from 40 characters before to 40 after the first occurrence of the
query, with each newline/carriage return replaced by a single space (runs of
whitespace are not collapsed), with "..." prepended exactly when the window
is truncated at the start and appended exactly when truncated at the end;
a match in a higher-priority field (author/title/description) produces an
empty snippet. -/
theorem C6_main :
    (∀ (content q : List Char) (i : Nat), idxOfSub q (lowerLc content) = some i →
        snippetOf content q = excerptAmended content q)
    ∧ (∀ (lang : Language) (q : List Char) (p : BlogPost) (m : SearchMatch),
        searchEntry lang q p = some m →
        (jsIncludes (lowerStr (jsOrStr p.author "Admin")) q = true
          ∨ jsIncludes (lowerStr (getLangField p .title lang)) q = true
          ∨ jsIncludes (lowerStr (getLangField p .description lang)) q = true) →
        m.snippet = "")
    ∧ (∀ (lang : Language) (q : List Char) (p : BlogPost) (m : SearchMatch),
        searchEntry lang q p = some m →
        jsIncludes (lowerStr (jsOrStr p.author "Admin")) q = false →
        jsIncludes (lowerStr (getLangField p .title lang)) q = false →
        jsIncludes (lowerStr (getLangField p .description lang)) q = false →
        m.snippet = String.mk (snippetOf (getLangField p .content lang).toList q)) := by
  refine ⟨?_, ?_, ?_⟩
  · intro content q i h
    simp only [snippetOf, excerptAmended, h]
    have hs : (max 0 ((i : Int) - 40)).toNat = i - 40 := by omega
    have he : (min (content.length : Int) ((i : Int) + (q.length : Int) + 40)).toNat
        = min content.length (i + q.length + 40) := by omega
    congr 1
    · congr 1
      · by_cases hc : 40 < i
        · rw [if_pos (by omega), if_pos hc]
        · rw [if_neg (by omega), if_neg hc]
      · rw [hs, he, List.drop_take]
    · by_cases hc : min content.length (i + q.length + 40) < content.length
      · rw [if_pos (by omega), if_pos hc]
      · rw [if_neg (by omega), if_neg hc]
  · intro lang q p m hm hhi
    by_cases ha : jsIncludes (lowerStr (jsOrStr p.author "Admin")) q
      <;> by_cases ht : jsIncludes (lowerStr (getLangField p .title lang)) q
      <;> by_cases hd : jsIncludes (lowerStr (getLangField p .description lang)) q
      <;> by_cases hc : jsIncludes (lowerStr (getLangField p .content lang)) q
      <;> simp [searchEntry, ha, ht, hd, hc] at hm
      <;> try subst hm
      <;> simp_all
  · intro lang q p m hm ha ht hd
    by_cases hc : jsIncludes (lowerStr (getLangField p .content lang)) q
      <;> simp [searchEntry, ha, ht, hd, hc] at hm
      <;> try subst hm
      <;> simp_all

/-- C6 (witness): the content-only-match snippet shape at the concrete
post `c6Post` and query "b". -/
theorem C6_witness :
    c6Match.snippet = String.mk (snippetOf (getLangField c6Post .content .en).toList ['b']) :=
  C6_main.2.2 .en ['b'] c6Post c6Match (by decide) (by decide) (by decide) (by decide)

end MicroBlog

namespace MicroBlog

theorem normalizeFrom_getElem (now : String) (k : Nat) (l : List RawPost) (i : Nat) :
    (normalizeFrom now k l)[i]? = (l[i]?).map (normalizeOne now (k + i)) := by
  induction l generalizing k i with
  | nil => simp [normalizeFrom]
  | cons p ps ih =>
    cases i with
    | zero => simp [normalizeFrom]
    | succ n =>
      simp only [normalizeFrom, List.getElem?_cons_succ]
      rw [ih (k + 1) n]
      have harith : k + 1 + n = k + (n + 1) := by omega
      rw [harith]

theorem normalize_getElem (now : String) (l : List RawPost) (i : Nat) :
    (normalize now l)[i]? = (l[i]?).map (normalizeOne now i) := by
  simpa using normalizeFrom_getElem now 0 l i

theorem postIdx_ne_empty (i : Nat) : "post-" ++ toString i ≠ "" := by
  intro h
  have := congrArg String.length h
  simp [String.length_append] at this
  exact absurd this.1 (by decide)

theorem normalizeOne_id_truthy (now : String) (i : Nat) (p : RawPost) :
    (normalizeOne now i p).id.truthy = true := by
  simp only [normalizeOne]
  by_cases hid : p.id.truthy = true
  · rw [if_pos hid]
    exact hid
  · rw [if_neg hid]
    simp [JsVal.truthy, postIdx_ne_empty i]

/-- C7 (counterexample): normalization passes a supplied falsy-free value
through, so a raw `readTimeMinutes` of -3 survives, violating the claimed
invariant `readTimeMinutes ≥ 1`; and the title default chain bottoms out at
`"Untitled Post"`, not the empty string. -/
theorem C7_counterexample :
    (normalize "d" [c7Raw]).map (fun p => p.readTimeMinutes) = [-3]
    ∧ ¬ (1 ≤ (-3 : Int))
    ∧ (normalize "d" [c7Raw]).map (fun p => p.title) = ["Untitled Post"]
    ∧ ("Untitled Post" : String) ≠ "" := by
  decide

/-- C7 (amended): every normalized record has a truthy (non-empty) id, with
`post-<index>` assigned exactly to the elements whose raw id is falsy;
`readTimeMinutes` is 5 when the raw value is absent or 0 and is otherwise
passed through unchanged (so a negative supplied value survives); and the
display fields are always defined strings, `title` defaulting through
`title_fr`, `title_en` to `"Untitled Post"` and `description`/`content`
through their variants to `""`. -/
theorem C7_main :
    ∀ (now : String) (l : List RawPost) (i : Nat) (p : RawPost) (np : NPost),
      l[i]? = some p → (normalize now l)[i]? = some np →
      np.id.truthy = true
      ∧ (p.id.truthy = false → np.id = .str ("post-" ++ toString i))
      ∧ ((p.readTimeMinutes = none ∨ p.readTimeMinutes = some 0) →
          np.readTimeMinutes = 5)
      ∧ (∀ v : Int, p.readTimeMinutes = some v → v ≠ 0 → np.readTimeMinutes = v)
      ∧ np.title = jsOrOpt p.title (jsOrOpt p.title_fr (jsOrOpt p.title_en "Untitled Post"))
      ∧ np.description
          = jsOrOpt p.description (jsOrOpt p.description_fr (jsOrOpt p.description_en ""))
      ∧ np.content = jsOrOpt p.content (jsOrOpt p.content_fr (jsOrOpt p.content_en "")) := by
  intro now l i p np hp hnp
  rw [normalize_getElem, hp, Option.map_some'] at hnp
  have hn : np = normalizeOne now i p := (Option.some.injEq _ _ ▸ hnp).symm
  subst hn
  refine ⟨normalizeOne_id_truthy now i p, ?_, ?_, ?_, rfl, rfl, rfl⟩
  · intro hfalsy
    simp [normalizeOne, hfalsy]
  · intro hr
    rcases hr with hr | hr <;> simp [normalizeOne, jsNumOr, hr]
  · intro v hv hvne
    simp [normalizeOne, jsNumOr, hv, hvne]

/-- C7 (witness): the invariants applied to the concrete raw post with
`readTimeMinutes = -3`. -/
theorem C7_witness : c7NPost.id.truthy = true :=
  (C7_main "d" [c7Raw] 0 c7Raw c7NPost (by decide) (by decide)).1

/-- C10: a present-but-falsy raw id (empty string, or the number 0) is
replaced by the synthesized `post-<index>` just like an absent id, so no
empty-string id survives normalization; and the image fallback treats an
empty id exactly as the string "0". -/
theorem C10_main :
    (∀ (now : String) (l : List RawPost) (i : Nat) (p : RawPost) (np : NPost),
        l[i]? = some p → (normalize now l)[i]? = some np → p.id.truthy = false →
        np.id = .str ("post-" ++ toString i))
    ∧ (normalize "d" [c10RawStr]).map (fun p => p.id) = [.str "post-0"]
    ∧ (normalize "d" [c10RawNum]).map (fun p => p.id) = [.str "post-0"]
    ∧ (∀ (now : String) (l : List RawPost) (i : Nat) (np : NPost),
        (normalize now l)[i]? = some np → np.id ≠ .str "")
    ∧ (∀ p : ImageRef, p.id = "" → getPostImage p = getPostImage { p with id := "0" }) := by
  refine ⟨?_, by decide, by decide, ?_, ?_⟩
  · intro now l i p np hp hnp hfalsy
    rw [normalize_getElem, hp, Option.map_some'] at hnp
    have hn : np = normalizeOne now i p := (Option.some.injEq _ _ ▸ hnp).symm
    subst hn
    simp [normalizeOne, hfalsy]
  · intro now l i np hnp heq
    rw [normalize_getElem] at hnp
    rcases Option.map_eq_some'.mp hnp with ⟨p, hp, hone⟩
    have := normalizeOne_id_truthy now i p
    rw [hone, heq] at this
    simp [JsVal.truthy] at this
  · intro p h
    cases p
    simp only at h
    subst h
    simp [getPostImage]

/-- C10 (witness): the empty-string id replaced at index 0. -/
theorem C10_witness : c10NPost.id = .str ("post-" ++ toString 0) :=
  C10_main.1 "d" [c10RawStr] 0 c10RawStr c10NPost (by decide) (by decide) (by decide)

/-- C8: a failing fetch outcome (network error or non-2xx status) and a
body without a JSON bracket span both leave the stored posts and
last-updated timestamp unchanged, and the no-span case logs no error (it is
a silent no-op); the model consumes exactly one fetch outcome per call, so
no retry happens within the call. -/
theorem C8_main :
    ∀ (parse : String → Option (List RawPost)) (now : String) (time : Nat)
      (st : FetchState) (outcome : FetchOutcome),
      (outcome = .networkError ∨ (∃ c, outcome = .httpError c)
        ∨ (∃ body, outcome = .ok body
            ∧ findJsonSpan (stripFence (jsTrim body)) = none)) →
      (fetchStep parse now time st outcome).1 = st
      ∧ (∀ body, outcome = .ok body → (fetchStep parse now time st outcome).2 = false) := by
  intro parse now time st outcome houtcome
  rcases houtcome with h | ⟨c, h⟩ | ⟨body, h, hspan⟩ <;> subst h
  · exact ⟨rfl, fun body h => by cases h⟩
  · exact ⟨rfl, fun body h => by cases h⟩
  · constructor
    · simp [fetchStep, hspan]
    · intro body2 h2
      have : body2 = body := by cases h2; rfl
      subst this
      simp [fetchStep, hspan]

/-- C8 (witness): a body with no brackets is a silent no-op on the concrete
empty state. -/
theorem C8_witness :
    (fetchStep (fun _ => none) "d" 5 c8State (.ok "no brackets")).1 = c8State
    ∧ (fetchStep (fun _ => none) "d" 5 c8State (.ok "no brackets")).2 = false := by
  have h := C8_main (fun _ => none) "d" 5 c8State (.ok "no brackets")
    (Or.inr (Or.inr ⟨"no brackets", rfl, by decide⟩))
  exact ⟨h.1, h.2 "no brackets" rfl⟩

/-- C9: any transition that changes the search query, the sort order or the
active language resets the current page to 1; in particular changing the
query between two different non-empty values does. -/
theorem C9_main :
    (∀ (s : ViewSt) (q : String), q ≠ s.searchQuery →
        (stepUi s (.setQuery q)).currentPage = 1)
    ∧ (∀ (s : ViewSt) (o : SortOrder), o ≠ s.sortOrder →
        (stepUi s (.setSort o)).currentPage = 1)
    ∧ (∀ (s : ViewSt) (l : Language), l ≠ s.language →
        (stepUi s (.setLang l)).currentPage = 1)
    ∧ (∀ (s : ViewSt) (q : String), s.searchQuery ≠ "" → q ≠ "" →
        q ≠ s.searchQuery → (stepUi s (.setQuery q)).currentPage = 1) := by
  refine ⟨?_, ?_, ?_, ?_⟩
  · intro s q h
    simp [stepUi, h]
  · intro s o h
    simp [stepUi, h]
  · intro s l h
    simp [stepUi, h]
  · intro s q _ _ h
    simp [stepUi, h]

/-- C9 (witness): changing the query from "old" to "new" on page 4 resets
the page to 1. -/
theorem C9_witness : (stepUi c9State (.setQuery "new")).currentPage = 1 :=
  C9_main.2.2.2 c9State "new" (by decide) (by decide) (by decide)

end MicroBlog
